import Mathlib

/-!
Verification of the outlook-round-robin mail dispatcher
(src/outlook_round_robin.py, configuration in src/settings.py).

The program polls a mailbox for unread messages, forwards them to a list of
recipients round-robin, marks forwarded messages as read, optionally
auto-replies to the sender, and persists the rotation cursor in a one-line
text file.

Shallow embedding conventions:
- File storage for the cursor is `Option (List Char)`: `none` models a file
  that is missing or unreadable, `some content` the character content of the
  file.  Python file reading via `readline` is `firstLine`; the Python `int`
  conversion (leading/trailing whitespace, optional sign, decimal digits) is
  `pyInt`; the bare `except` clauses of `store_index` and `load_index` become
  the `Option` plumbing.
- The HTTP mail API is an environment of pure response functions (`Env`):
  `fwdOk` gives the success of `forward_message` on its arguments, `markOk`
  the success of `mark_message_as_read`, `replyOk` the success of
  `send_reply`.  The result of `load_messages` (the pair
  `got_messages, messages`) is a parameter of `check_messages`.
- `check_messages` additionally returns the trace of mail-API calls it makes
  (`Event`), so that claims about which calls happen can be stated.  A Python
  `IndexError` from `FORWARD_TO[stop_index]` is modelled by an `Option`
  result: `none` means the loop raises.
-/

/-! ## Decimal integer parsing and printing (Python `int` / `str.format`) -/

/-- Value of a decimal digit character, as in `ord(c) - 48`. -/
def digitVal (c : Char) : Nat := c.toNat - 48

/-- Tests whether a character is a decimal digit `0`..`9`. -/
def isDigitChar (c : Char) : Bool := 48 ≤ c.toNat && c.toNat ≤ 57

/-- Character for a decimal digit value below ten. -/
def digitChar (d : Nat) : Char := Char.ofNat (48 + d)

/-- Python `int` on a string of decimal digits only: fails on the empty
string or on any non-digit character. -/
def parseDigits (l : List Char) : Option Nat :=
  if l.isEmpty then none
  else if l.all isDigitChar then some (Nat.ofDigits 10 (l.reverse.map digitVal))
  else none

/-- Decimal representation of a natural number, as produced by Python
`str`. -/
def natToChars (n : Nat) : List Char :=
  if n = 0 then ['0'] else ((Nat.digits 10 n).map digitChar).reverse

/-- Decimal representation of an integer, as produced by Python `str`:
a minus sign followed by the digits when negative. -/
def intToChars (v : Int) : List Char :=
  if v < 0 then '-' :: natToChars v.natAbs else natToChars v.toNat

/-- Whitespace characters stripped by Python `int` before parsing. -/
def isPyWS (c : Char) : Bool :=
  c = ' ' || c = '\t' || c = '\n' || c = '\r' || c = '\x0b' || c = '\x0c'

/-- Strips leading and trailing whitespace, as Python `int` does on its
string argument. -/
def stripChars (l : List Char) : List Char :=
  ((l.dropWhile isPyWS).reverse.dropWhile isPyWS).reverse

/-- Sign-and-digits stage of Python `int`: an optional single sign
followed by decimal digits. -/
def pyIntSigned : List Char → Option Int
  | [] => none
  | c :: rest =>
    if c = '-' then (parseDigits rest).map fun n => -(n : Int)
    else if c = '+' then (parseDigits rest).map fun n => (n : Int)
    else (parseDigits (c :: rest)).map fun n => (n : Int)

/-- Python `int(s)`: strip whitespace, optional single sign, then decimal
digits; `none` models the `ValueError` raised on any other input. -/
def pyInt (l : List Char) : Option Int :=
  pyIntSigned (stripChars l)

/-- Python `file.readline()`: the prefix of the content up to and including
the first newline (the whole content when there is none). -/
def firstLine : List Char → List Char
  | [] => []
  | c :: rest => if c = '\n' then ['\n'] else c :: firstLine rest

/-! ## Rotation index store (`store_index`, `load_index`) -/

/-- Embeds `store_index` of src/outlook_round_robin.py: the file content
written on a successful write, `'{}\n'.format(index)`.  (A failed write
leaves the previous storage in place; the write itself never raises past
the bare `except`.) -/
def store_index (index : Int) : List Char :=
  intToChars index ++ ['\n']

/-- Embeds `load_index` of src/outlook_round_robin.py: read the first line
of the index file and convert it with `int`; any failure (missing or
unreadable file, unparseable content) is caught by the bare `except` and
yields 0. -/
def load_index (storage : Option (List Char)) : Int :=
  match storage with
  | none => 0
  | some content =>
    match pyInt (firstLine content) with
    | none => 0
    | some v => v

/-! ## Token manager (`get_access_token`) -/

/-- Response of the token provider endpoint, as read by
`get_access_token`. -/
structure TokenResponse where
  status_code : Nat
  access_token : String
  expires_in : Int
  error_description : String

/-- Embeds `get_access_token` of src/outlook_round_robin.py.  Time is in
seconds; `now` is `datetime.now()` at the call.  On HTTP 200 the function
returns the token and the renewal time `now + (expires_in - 300)`
(five minutes before expiry); otherwise `(false, "", none)`. -/
def get_access_token (now : Int) (resp : TokenResponse) :
    Bool × String × Option Int :=
  if resp.status_code = 200 then
    (true, resp.access_token, some (now + (resp.expires_in - 300)))
  else
    (false, "", none)

/-! ## Dispatcher (`check_messages`) -/

/-- A mailbox message as consumed by `check_messages`.  `sender` is the
result of the guarded lookup `message['from']['emailAddress']['address']`:
`none` when the `try`/`except KeyError` fires. -/
structure Message where
  id : String
  subject : String
  sender : Option String
  deriving DecidableEq, Repr

/-- The configuration fields of src/settings.py that `check_messages`
reads. -/
structure Settings where
  FORWARD_TO : List (String × String)
  AUTO_REPLY : Bool
  AUTO_REPLY_EXCLUSIONS : List String

/-- Outcomes of the mail API, one pure function per HTTP helper: `fwdOk`
is the Bool returned by `forward_message message_id name email`, `markOk`
the Bool returned by `mark_message_as_read message_id`, `replyOk` the Bool
returned by `send_reply recipient_email`. -/
structure Env where
  fwdOk : String → String → String → Bool
  markOk : String → Bool
  replyOk : String → Bool

/-- One mail-API call made by the dispatcher, with its arguments and
result. -/
inductive Event where
  | forward (msgId name email : String) (ok : Bool)
  | markRead (msgId : String) (ok : Bool)
  | autoReply (email : String) (ok : Bool)
  deriving DecidableEq, Repr

/-- The `send_reply` call made for a message after a successful forward:
one call to the sender exactly when `AUTO_REPLY` is set, the sender address
is known, and it is not in `AUTO_REPLY_EXCLUSIONS` (the guard on line 231
of src/outlook_round_robin.py). -/
def replyEvents (s : Settings) (env : Env) (m : Message) : List Event :=
  match m.sender with
  | some se =>
    if s.AUTO_REPLY && !(s.AUTO_REPLY_EXCLUSIONS.contains se) then
      [Event.autoReply se (env.replyOk se)]
    else []
  | none => []

/-- Embeds the body of the `for message in messages` loop of
`check_messages` for one message, given the recipient `(nm, em)` selected
by the cursor: attempt the forward; on success mark the message read and,
when auto-reply is on, the sender is known and not excluded, send the
reply.  Returns the success of the forward (which decides the cursor
advance) and the API calls made. -/
def processMessage (s : Settings) (env : Env) (m : Message) (nm em : String) :
    Bool × List Event :=
  if env.fwdOk m.id nm em then
    (true,
      Event.forward m.id nm em true ::
      Event.markRead m.id (env.markOk m.id) ::
      replyEvents s env m)
  else
    (false, [Event.forward m.id nm em false])

/-- Embeds the message loop of `check_messages`: starting from cursor
`idx`, select `FORWARD_TO[idx]` (a `none` result models the `IndexError`
Python raises when the cursor is out of range), process the message, and
advance the cursor by one modulo `len(FORWARD_TO)` exactly when the
forward succeeded.  Returns the final cursor and the concatenated API
trace.  (The `sleep(0.25)` throttle between messages has no observable
effect in this embedding.) -/
def processBatch (s : Settings) (env : Env) :
    List Message → Nat → Option (Nat × List Event)
  | [], idx => some (idx, [])
  | m :: rest, idx =>
    match s.FORWARD_TO[idx]? with
    | none => none
    | some (nm, em) =>
      let r := processMessage s env m nm em
      let idx2 := if r.1 then (idx + 1) % s.FORWARD_TO.length else idx
      (processBatch s env rest idx2).map fun q => (q.1, r.2 ++ q.2)

/-- Embeds `check_messages` of src/outlook_round_robin.py.  `loadResult`
is the pair `got_messages, messages` returned by `load_messages`: when the
flag is false the function returns `start_index` immediately (no API call);
otherwise it runs the message loop. -/
def check_messages (s : Settings) (env : Env)
    (loadResult : Bool × List Message) (start_index : Nat) :
    Option (Nat × List Event) :=
  if loadResult.1 then processBatch s env loadResult.2 start_index
  else some (start_index, [])

/-- Arguments of the successful `forward_message` calls of a trace, in
order: message id, recipient name, recipient email. -/
def forwardsOf (evts : List Event) : List (String × String × String) :=
  evts.filterMap fun e =>
    match e with
    | Event.forward mid nm em true => some (mid, nm, em)
    | _ => none

/-- The `FORWARD_TO` and auto-reply values of src/settings.py. -/
def defaultSettings : Settings where
  FORWARD_TO := [("Bender Bending Rodriguez", "bender@planetexpress.com"),
                 ("Zoidberg", "zoidberg@planetexpress.com")]
  AUTO_REPLY := true
  AUTO_REPLY_EXCLUSIONS := []

/-- The three-message batch of the test suite
(src/test/test_outlook_round_robin.py). -/
def sampleMessages : List Message :=
  [{ id := "1", subject := "What is the matter? Ya scared?!",
     sender := some "roberto@planetexpress.com" },
   { id := "2", subject := "What if... That thing I said",
     sender := some "fry@planetexpress.com" },
   { id := "3", subject := "Good news everyone!",
     sender := some "professor@planetexpress.com" }]

/-- An environment in which every mail-API call succeeds. -/
def allOkEnv : Env where
  fwdOk := fun _ _ _ => true
  markOk := fun _ => true
  replyOk := fun _ => true

/-- An environment in which every forward fails and the other calls
succeed. -/
def failFwdEnv : Env where
  fwdOk := fun _ _ _ => false
  markOk := fun _ => true
  replyOk := fun _ => true

/-- An environment in which forwards and replies succeed but every
mark-as-read call fails. -/
def markFailEnv : Env where
  fwdOk := fun _ _ _ => true
  markOk := fun _ => false
  replyOk := fun _ => true

/-- An environment in which only the message with id "1" can be
forwarded. -/
def oneOkEnv : Env where
  fwdOk := fun mid _ _ => mid == "1"
  markOk := fun _ => true
  replyOk := fun _ => true

/-- A single sample message. -/
def sampleMsg : Message where
  id := "1"
  subject := "hello"
  sender := some "fry@planetexpress.com"

/-! ## Lemmas on decimal printing and parsing -/

lemma digitChar_toNat {d : Nat} (hd : d < 10) : (digitChar d).toNat = 48 + d := by
  interval_cases d <;> rfl

lemma isDigitChar_digitChar {d : Nat} (hd : d < 10) :
    isDigitChar (digitChar d) = true := by
  interval_cases d <;> rfl

lemma digitVal_digitChar {d : Nat} (hd : d < 10) : digitVal (digitChar d) = d := by
  interval_cases d <;> rfl

lemma natToChars_ne_nil (n : Nat) : natToChars n ≠ [] := by
  unfold natToChars
  split
  · simp
  · simp [Nat.digits_ne_nil_iff_ne_zero, *]

lemma mem_natToChars_isDigit {c : Char} {n : Nat} (hc : c ∈ natToChars n) :
    isDigitChar c = true := by
  unfold natToChars at hc
  split at hc
  · simp at hc
    subst hc
    rfl
  · rw [List.mem_reverse, List.mem_map] at hc
    obtain ⟨d, hd, hdc⟩ := hc
    have hlt : d < 10 := Nat.digits_lt_base (by norm_num) hd
    rw [← hdc]
    exact isDigitChar_digitChar hlt

lemma parseDigits_natToChars (n : Nat) : parseDigits (natToChars n) = some n := by
  by_cases h : n = 0
  · subst h
    decide
  · unfold parseDigits
    rw [if_neg, if_pos]
    · congr 1
      unfold natToChars
      rw [if_neg h, List.reverse_reverse, List.map_map]
      have h2 : ∀ d ∈ Nat.digits 10 n, (digitVal ∘ digitChar) d = id d := by
        intro d hd
        have hlt : d < 10 := Nat.digits_lt_base (by norm_num) hd
        simp [digitVal_digitChar hlt]
      rw [List.map_congr_left h2, List.map_id, Nat.ofDigits_digits]
    · rw [List.all_eq_true]
      intro c hc
      exact mem_natToChars_isDigit hc
    · simp [List.isEmpty_iff, natToChars_ne_nil n]

lemma not_isPyWS_of_isDigitChar {c : Char} (h : isDigitChar c = true) :
    isPyWS c = false := by
  unfold isDigitChar at h
  rw [Bool.and_eq_true, decide_eq_true_eq, decide_eq_true_eq] at h
  have e : ∀ w : Char, w.toNat < 48 → decide (c = w) = false := by
    intro w hw
    apply decide_eq_false
    intro hcc
    subst hcc
    omega
  unfold isPyWS
  rw [e ' ' (by decide), e '\t' (by decide), e '\n' (by decide),
      e '\r' (by decide), e '\x0b' (by decide), e '\x0c' (by decide)]
  simp

lemma intToChars_ne_nil (v : Int) : intToChars v ≠ [] := by
  unfold intToChars
  split
  · simp
  · exact natToChars_ne_nil _

lemma mem_intToChars_not_ws {c : Char} {v : Int} (hc : c ∈ intToChars v) :
    isPyWS c = false := by
  unfold intToChars at hc
  split at hc
  · rcases List.mem_cons.mp hc with h | h
    · subst h
      rfl
    · exact not_isPyWS_of_isDigitChar (mem_natToChars_isDigit h)
  · exact not_isPyWS_of_isDigitChar (mem_natToChars_isDigit hc)

lemma mem_intToChars_ne_newline {c : Char} {v : Int} (hc : c ∈ intToChars v) :
    c ≠ '\n' := by
  intro h
  subst h
  exact absurd (mem_intToChars_not_ws hc) (by decide)

lemma dropWhile_cons_eq (c : Char) (t : List Char) (h : isPyWS c = false) :
    (c :: t).dropWhile isPyWS = c :: t := by
  simp [List.dropWhile_cons, h]

lemma dropWhile_eq_self_of_all (l : List Char)
    (h : ∀ c ∈ l, isPyWS c = false) : l.dropWhile isPyWS = l := by
  cases l with
  | nil => rfl
  | cons c t => exact dropWhile_cons_eq c t (h c (by simp))

lemma firstLine_append_newline (l : List Char) (h : ∀ c ∈ l, c ≠ '\n') :
    firstLine (l ++ ['\n']) = l ++ ['\n'] := by
  induction l with
  | nil => rfl
  | cons c t ih =>
    have hc : c ≠ '\n' := h c (by simp)
    have step : firstLine ((c :: t) ++ ['\n']) = c :: firstLine (t ++ ['\n']) := by
      simp [firstLine, hc]
    rw [step, ih (fun d hd => h d (by simp [hd])), List.cons_append]

lemma stripChars_store (v : Int) :
    stripChars (intToChars v ++ ['\n']) = intToChars v := by
  obtain ⟨c, t, hct⟩ : ∃ c t, intToChars v = c :: t := by
    cases h : intToChars v with
    | nil => exact absurd h (intToChars_ne_nil v)
    | cons c t => exact ⟨c, t, rfl⟩
  have hc : isPyWS c = false :=
    mem_intToChars_not_ws (v := v) (by rw [hct]; simp)
  unfold stripChars
  rw [hct, List.cons_append, dropWhile_cons_eq c (t ++ ['\n']) hc]
  have h2 : (c :: (t ++ ['\n'])).reverse = '\n' :: (c :: t).reverse := by
    simp
  have hnl : isPyWS '\n' = true := by decide
  have h3 : List.dropWhile isPyWS ('\n' :: (c :: t).reverse) =
      List.dropWhile isPyWS ((c :: t).reverse) := by
    simp [List.dropWhile_cons, hnl]
  have h4 : List.dropWhile isPyWS ((c :: t).reverse) = (c :: t).reverse := by
    apply dropWhile_eq_self_of_all
    intro d hd
    rw [List.mem_reverse] at hd
    exact mem_intToChars_not_ws (v := v) (by rw [hct]; exact hd)
  rw [h2, h3, h4, List.reverse_reverse]

lemma isDigitChar_ne_minus {c : Char} (h : isDigitChar c = true) : c ≠ '-' := by
  intro hc
  subst hc
  exact absurd h (by decide)

lemma isDigitChar_ne_plus {c : Char} (h : isDigitChar c = true) : c ≠ '+' := by
  intro hc
  subst hc
  exact absurd h (by decide)

lemma pyInt_store_chars (v : Int) : pyInt (intToChars v ++ ['\n']) = some v := by
  unfold pyInt
  rw [stripChars_store]
  by_cases hv : v < 0
  · have hform : intToChars v = '-' :: natToChars v.natAbs := by
      unfold intToChars
      rw [if_pos hv]
    rw [hform]
    show (parseDigits (natToChars v.natAbs)).map (fun n => -(n : Int)) = some v
    rw [parseDigits_natToChars]
    show some (-(v.natAbs : Int)) = some v
    congr 1
    omega
  · have hform : intToChars v = natToChars v.toNat := by
      unfold intToChars
      rw [if_neg hv]
    obtain ⟨c, t, hct⟩ : ∃ c t, natToChars v.toNat = c :: t := by
      cases h : natToChars v.toNat with
      | nil => exact absurd h (natToChars_ne_nil _)
      | cons c t => exact ⟨c, t, rfl⟩
    have hdig : isDigitChar c = true :=
      mem_natToChars_isDigit (n := v.toNat) (by rw [hct]; simp)
    rw [hform, hct]
    show (if c = '-' then (parseDigits t).map (fun n => -(n : Int))
          else if c = '+' then (parseDigits t).map (fun n => (n : Int))
          else (parseDigits (c :: t)).map (fun n => (n : Int))) = some v
    rw [if_neg (isDigitChar_ne_minus hdig), if_neg (isDigitChar_ne_plus hdig), ← hct,
      parseDigits_natToChars]
    show some ((v.toNat : Int)) = some v
    congr 1
    omega

/-! ## Lemmas on the dispatcher -/

lemma processMessage_fst (s : Settings) (env : Env) (m : Message) (nm em : String) :
    (processMessage s env m nm em).1 = env.fwdOk m.id nm em := by
  unfold processMessage
  cases env.fwdOk m.id nm em <;> rfl

lemma processMessage_success (s : Settings) (env : Env) (m : Message) (nm em : String)
    (h : env.fwdOk m.id nm em = true) :
    processMessage s env m nm em =
      (true, Event.forward m.id nm em true ::
        Event.markRead m.id (env.markOk m.id) :: replyEvents s env m) := by
  unfold processMessage
  rw [if_pos h]

lemma processMessage_failure (s : Settings) (env : Env) (m : Message) (nm em : String)
    (h : env.fwdOk m.id nm em = false) :
    processMessage s env m nm em = (false, [Event.forward m.id nm em false]) := by
  unfold processMessage
  rw [if_neg (by simp [h])]

lemma processBatch_nil (s : Settings) (env : Env) (idx : Nat) :
    processBatch s env [] idx = some (idx, []) := rfl

lemma processBatch_cons_success (s : Settings) (env : Env) (m : Message)
    (rest : List Message) (idx : Nat) (nm em : String)
    (hsel : s.FORWARD_TO[idx]? = some (nm, em))
    (hf : env.fwdOk m.id nm em = true) :
    processBatch s env (m :: rest) idx =
      (processBatch s env rest ((idx + 1) % s.FORWARD_TO.length)).map
        fun q => (q.1, Event.forward m.id nm em true ::
          Event.markRead m.id (env.markOk m.id) :: replyEvents s env m ++ q.2) := by
  rw [processBatch.eq_2, hsel]
  simp [processMessage_success s env m nm em hf]

lemma processBatch_cons_failure (s : Settings) (env : Env) (m : Message)
    (rest : List Message) (idx : Nat) (nm em : String)
    (hsel : s.FORWARD_TO[idx]? = some (nm, em))
    (hf : env.fwdOk m.id nm em = false) :
    processBatch s env (m :: rest) idx =
      (processBatch s env rest idx).map
        fun q => (q.1, Event.forward m.id nm em false :: q.2) := by
  rw [processBatch.eq_2, hsel]
  simp [processMessage_failure s env m nm em hf]

lemma forwardsOf_append (a b : List Event) :
    forwardsOf (a ++ b) = forwardsOf a ++ forwardsOf b := by
  simp [forwardsOf]

lemma replyEvents_cases (s : Settings) (env : Env) (m : Message) :
    replyEvents s env m = [] ∨
      ∃ se ok, replyEvents s env m = [Event.autoReply se ok] := by
  unfold replyEvents
  rcases m.sender with _ | se
  · exact Or.inl rfl
  · by_cases h : (s.AUTO_REPLY && !(s.AUTO_REPLY_EXCLUSIONS.contains se)) = true
    · refine Or.inr ⟨se, env.replyOk se, ?_⟩
      show (if (s.AUTO_REPLY && !(s.AUTO_REPLY_EXCLUSIONS.contains se)) = true then
          [Event.autoReply se (env.replyOk se)] else []) =
        [Event.autoReply se (env.replyOk se)]
      rw [if_pos h]
    · refine Or.inl ?_
      show (if (s.AUTO_REPLY && !(s.AUTO_REPLY_EXCLUSIONS.contains se)) = true then
          [Event.autoReply se (env.replyOk se)] else []) = []
      rw [if_neg h]

lemma forwardsOf_replyEvents (s : Settings) (env : Env) (m : Message) :
    forwardsOf (replyEvents s env m) = [] := by
  rcases replyEvents_cases s env m with h | ⟨se, ok, h⟩
  · rw [h]
    rfl
  · rw [h]
    rfl

lemma forwardsOf_cons_fwd_true (mid nm em : String) (tail : List Event) :
    forwardsOf (Event.forward mid nm em true :: tail) =
      (mid, nm, em) :: forwardsOf tail := by
  simp [forwardsOf]

lemma forwardsOf_cons_fwd_false (mid nm em : String) (tail : List Event) :
    forwardsOf (Event.forward mid nm em false :: tail) = forwardsOf tail := by
  simp [forwardsOf]

lemma forwardsOf_cons_mark (mid : String) (b : Bool) (tail : List Event) :
    forwardsOf (Event.markRead mid b :: tail) = forwardsOf tail := by
  simp [forwardsOf]

lemma exists_sel (s : Settings) {idx : Nat} (hidx : idx < s.FORWARD_TO.length) :
    ∃ nm em, s.FORWARD_TO[idx]? = some (nm, em) := by
  refine ⟨(s.FORWARD_TO[idx]).1, (s.FORWARD_TO[idx]).2, ?_⟩
  rw [List.getElem?_eq_getElem hidx]

lemma processBatch_total_lt (s : Settings) (env : Env) :
    ∀ (msgs : List Message) (idx : Nat), idx < s.FORWARD_TO.length →
      ∃ fin evts, processBatch s env msgs idx = some (fin, evts) ∧
        fin < s.FORWARD_TO.length := by
  intro msgs
  induction msgs with
  | nil =>
    intro idx hidx
    exact ⟨idx, [], processBatch_nil s env idx, hidx⟩
  | cons m rest ih =>
    intro idx hidx
    have hN : 0 < s.FORWARD_TO.length := Nat.lt_of_le_of_lt (Nat.zero_le idx) hidx
    obtain ⟨nm, em, hsel⟩ := exists_sel s hidx
    cases hfw : env.fwdOk m.id nm em with
    | false =>
      obtain ⟨fin, evts, hres, hlt⟩ := ih idx hidx
      refine ⟨fin, Event.forward m.id nm em false :: evts, ?_, hlt⟩
      rw [processBatch_cons_failure s env m rest idx nm em hsel hfw, hres]
      rfl
    | true =>
      obtain ⟨fin, evts, hres, hlt⟩ :=
        ih ((idx + 1) % s.FORWARD_TO.length) (Nat.mod_lt _ hN)
      refine ⟨fin, Event.forward m.id nm em true ::
        Event.markRead m.id (env.markOk m.id) :: replyEvents s env m ++ evts, ?_, hlt⟩
      rw [processBatch_cons_success s env m rest idx nm em hsel hfw, hres]
      rfl

lemma processBatch_count (s : Settings) (env : Env) (f : String → Bool)
    (hf : ∀ mid nm em, env.fwdOk mid nm em = f mid) :
    ∀ (msgs : List Message) (idx : Nat), idx < s.FORWARD_TO.length →
      ∃ evts, processBatch s env msgs idx =
        some ((idx + msgs.countP fun msg => f msg.id) % s.FORWARD_TO.length, evts) := by
  intro msgs
  induction msgs with
  | nil =>
    intro idx hidx
    refine ⟨[], ?_⟩
    rw [processBatch_nil]
    have h0 : (idx + List.countP (fun msg => f msg.id) ([] : List Message)) %
        s.FORWARD_TO.length = idx := by
      simp [Nat.mod_eq_of_lt hidx]
    rw [h0]
  | cons m rest ih =>
    intro idx hidx
    have hN : 0 < s.FORWARD_TO.length := Nat.lt_of_le_of_lt (Nat.zero_le idx) hidx
    obtain ⟨nm, em, hsel⟩ := exists_sel s hidx
    cases hfm : f m.id with
    | false =>
      have hfw : env.fwdOk m.id nm em = false := by rw [hf, hfm]
      obtain ⟨evts, hres⟩ := ih idx hidx
      have hc : (idx + List.countP (fun msg => f msg.id) rest) % s.FORWARD_TO.length =
          (idx + List.countP (fun msg => f msg.id) (m :: rest)) % s.FORWARD_TO.length := by
        rw [List.countP_cons_of_neg _ _ (by simp [hfm])]
      rw [hc] at hres
      refine ⟨Event.forward m.id nm em false :: evts, ?_⟩
      rw [processBatch_cons_failure s env m rest idx nm em hsel hfw, hres]
      rfl
    | true =>
      have hfw : env.fwdOk m.id nm em = true := by rw [hf, hfm]
      obtain ⟨evts, hres⟩ := ih ((idx + 1) % s.FORWARD_TO.length) (Nat.mod_lt _ hN)
      have hc : ((idx + 1) % s.FORWARD_TO.length +
            List.countP (fun msg => f msg.id) rest) % s.FORWARD_TO.length =
          (idx + List.countP (fun msg => f msg.id) (m :: rest)) % s.FORWARD_TO.length := by
        rw [Nat.mod_add_mod, List.countP_cons_of_pos _ _ (by simp [hfm])]
        congr 1
        omega
      rw [hc] at hres
      refine ⟨Event.forward m.id nm em true ::
        Event.markRead m.id (env.markOk m.id) :: replyEvents s env m ++ evts, ?_⟩
      rw [processBatch_cons_success s env m rest idx nm em hsel hfw, hres]
      rfl

lemma processBatch_all_success (s : Settings) (env : Env) :
    ∀ (msgs : List Message) (idx : Nat), idx < s.FORWARD_TO.length →
      (∀ m ∈ msgs, ∀ nm em, env.fwdOk m.id nm em = true) →
      ∃ evts, processBatch s env msgs idx =
          some ((idx + msgs.length) % s.FORWARD_TO.length, evts) ∧
        (forwardsOf evts).length = msgs.length ∧
        ∀ i, i < msgs.length →
          (forwardsOf evts)[i]? =
            msgs[i]?.bind fun m =>
              (s.FORWARD_TO[(idx + i) % s.FORWARD_TO.length]?).map fun p =>
                (m.id, p.1, p.2) := by
  intro msgs
  induction msgs with
  | nil =>
    intro idx hidx _
    refine ⟨[], ?_, rfl, ?_⟩
    · rw [processBatch_nil]
      have h0 : (idx + ([] : List Message).length) % s.FORWARD_TO.length = idx := by
        simp [Nat.mod_eq_of_lt hidx]
      rw [h0]
    · intro i hi
      exact absurd hi (by simp)
  | cons m rest ih =>
    intro idx hidx hall
    have hN : 0 < s.FORWARD_TO.length := Nat.lt_of_le_of_lt (Nat.zero_le idx) hidx
    obtain ⟨nm, em, hsel⟩ := exists_sel s hidx
    have hfw : env.fwdOk m.id nm em = true := hall m (by simp) nm em
    obtain ⟨evts, hres, hlen, hix⟩ :=
      ih ((idx + 1) % s.FORWARD_TO.length) (Nat.mod_lt _ hN)
        (fun m2 hm2 => hall m2 (by simp [hm2]))
    have hc : ((idx + 1) % s.FORWARD_TO.length + rest.length) % s.FORWARD_TO.length =
        (idx + (m :: rest).length) % s.FORWARD_TO.length := by
      rw [Nat.mod_add_mod, List.length_cons]
      congr 1
      omega
    rw [hc] at hres
    refine ⟨Event.forward m.id nm em true ::
      Event.markRead m.id (env.markOk m.id) :: replyEvents s env m ++ evts, ?_, ?_, ?_⟩
    · rw [processBatch_cons_success s env m rest idx nm em hsel hfw, hres]
      rfl
    · rw [forwardsOf_append, forwardsOf_cons_fwd_true, forwardsOf_cons_mark,
        forwardsOf_replyEvents, List.cons_append, List.nil_append, List.length_cons,
        hlen, List.length_cons]
    · intro i hi
      rw [forwardsOf_append, forwardsOf_cons_fwd_true, forwardsOf_cons_mark,
        forwardsOf_replyEvents, List.cons_append, List.nil_append]
      cases i with
      | zero =>
        rw [List.getElem?_cons_zero, List.getElem?_cons_zero]
        have h0 : (idx + 0) % s.FORWARD_TO.length = idx := by
          rw [Nat.add_zero, Nat.mod_eq_of_lt hidx]
        rw [h0, hsel]
        rfl
      | succ i =>
        rw [List.getElem?_cons_succ, List.getElem?_cons_succ]
        have hmod : ((idx + 1) % s.FORWARD_TO.length + i) % s.FORWARD_TO.length =
            (idx + (i + 1)) % s.FORWARD_TO.length := by
          rw [Nat.mod_add_mod]
          congr 1
          omega
        rw [← hmod]
        exact hix i (by simp only [List.length_cons] at hi; omega)

lemma processBatch_fst_markOk (s : Settings) (env : Env) (mk : String → Bool) :
    ∀ (msgs : List Message) (idx : Nat),
      (processBatch s { env with markOk := mk } msgs idx).map Prod.fst =
        (processBatch s env msgs idx).map Prod.fst := by
  intro msgs
  induction msgs with
  | nil =>
    intro idx
    rfl
  | cons m rest ih =>
    intro idx
    cases hsel : s.FORWARD_TO[idx]? with
    | none =>
      rw [processBatch.eq_2, processBatch.eq_2, hsel]
    | some p =>
      obtain ⟨nm, em⟩ := p
      cases hfw : env.fwdOk m.id nm em with
      | true =>
        have hfw2 : ({ env with markOk := mk } : Env).fwdOk m.id nm em = true := hfw
        rw [processBatch_cons_success s { env with markOk := mk } m rest idx nm em hsel hfw2,
          processBatch_cons_success s env m rest idx nm em hsel hfw,
          Option.map_map, Option.map_map]
        exact ih ((idx + 1) % s.FORWARD_TO.length)
      | false =>
        have hfw2 : ({ env with markOk := mk } : Env).fwdOk m.id nm em = false := hfw
        rw [processBatch_cons_failure s { env with markOk := mk } m rest idx nm em hsel hfw2,
          processBatch_cons_failure s env m rest idx nm em hsel hfw,
          Option.map_map, Option.map_map]
        exact ih idx

lemma replyEvents_none (s : Settings) (env : Env) (m : Message)
    (h : m.sender = none) : replyEvents s env m = [] := by
  unfold replyEvents
  rw [h]

lemma replyEvents_some_pos (s : Settings) (env : Env) (m : Message) (se : String)
    (hse : m.sender = some se)
    (hc : (s.AUTO_REPLY && !(s.AUTO_REPLY_EXCLUSIONS.contains se)) = true) :
    replyEvents s env m = [Event.autoReply se (env.replyOk se)] := by
  unfold replyEvents
  rw [hse]
  show (if (s.AUTO_REPLY && !(s.AUTO_REPLY_EXCLUSIONS.contains se)) = true then
      [Event.autoReply se (env.replyOk se)] else []) = _
  rw [if_pos hc]

lemma replyEvents_some_neg (s : Settings) (env : Env) (m : Message) (se : String)
    (hse : m.sender = some se)
    (hc : (s.AUTO_REPLY && !(s.AUTO_REPLY_EXCLUSIONS.contains se)) = false) :
    replyEvents s env m = [] := by
  unfold replyEvents
  rw [hse]
  show (if (s.AUTO_REPLY && !(s.AUTO_REPLY_EXCLUSIONS.contains se)) = true then
      [Event.autoReply se (env.replyOk se)] else []) = []
  rw [if_neg (by rw [hc]; decide)]

/-! ## Claims -/

/-- C4: when the message-list fetch fails, check_messages returns its
start_index and makes no mail-API call (no forward, no mark-as-read, no
auto-reply) in that cycle. -/
theorem c4_fetch_failure_leaves_cursor (s : Settings) (env : Env)
    (msgs : List Message) (start : Nat) :
    check_messages s env (false, msgs) start = some (start, []) := rfl

/-- C7: load_index never propagates an error: it returns 0 when the index
file is missing or unreadable (storage `none`) and 0 when the first line of
the file content does not parse as an integer. -/
theorem c7_load_index_defaults_to_zero (content : List Char)
    (h : pyInt (firstLine content) = none) :
    load_index none = 0 ∧ load_index (some content) = 0 := by
  refine ⟨rfl, ?_⟩
  show ((match pyInt (firstLine content) with
    | none => 0
    | some w => w) : Int) = 0
  rw [h]

/-- Witness for c7_load_index_defaults_to_zero at the unparseable content
"abc". -/
theorem c7_load_index_defaults_to_zero_witness :
    load_index none = 0 ∧ load_index (some ['a', 'b', 'c']) = 0 :=
  c7_load_index_defaults_to_zero ['a', 'b', 'c'] (by decide)

/-- C8: storing any integer and then loading the index file reads the same
integer back: store_index followed by load_index round-trips. -/
theorem c8_store_load_round_trip (v : Int) :
    load_index (some (store_index v)) = v := by
  show ((match pyInt (firstLine (intToChars v ++ ['\n'])) with
    | none => 0
    | some w => w) : Int) = v
  rw [firstLine_append_newline (intToChars v) (fun c hc => mem_intToChars_ne_newline hc),
    pyInt_store_chars]

/-- C9: on a successful token request, get_access_token returns a renewal
time equal to the acquisition time plus the provider-reported TTL minus the
300-second safety margin. -/
theorem c9_token_renewal_margin (now : Int) (resp : TokenResponse)
    (h : resp.status_code = 200) :
    get_access_token now resp =
      (true, resp.access_token, some (now + resp.expires_in - 300)) := by
  unfold get_access_token
  rw [if_pos h]
  rw [add_sub_assoc]

/-- Witness for c9_token_renewal_margin at a 200 response with TTL 3600. -/
theorem c9_token_renewal_margin_witness :
    get_access_token 0 ⟨200, "tok", 3600, ""⟩ = (true, "tok", some 3300) := by
  have h := c9_token_renewal_margin 0 ⟨200, "tok", 3600, ""⟩ rfl
  simpa using h

/-- C1: for a non-empty recipient list of length N, every starting cursor C
in [0, N) and every batch all of whose forwards succeed, check_messages
returns final cursor (C + K) mod N for a batch of K messages, and the i-th
successful forward of the trace sends message i to
FORWARD_TO[(C + i) mod N]. -/
theorem c1_round_robin_all_success (s : Settings) (env : Env)
    (msgs : List Message) (C : Nat) (hC : C < s.FORWARD_TO.length)
    (hall : ∀ m ∈ msgs, ∀ nm em, env.fwdOk m.id nm em = true) :
    ∃ evts, check_messages s env (true, msgs) C =
        some ((C + msgs.length) % s.FORWARD_TO.length, evts) ∧
      (forwardsOf evts).length = msgs.length ∧
      ∀ i, i < msgs.length →
        (forwardsOf evts)[i]? =
          msgs[i]?.bind fun m =>
            (s.FORWARD_TO[(C + i) % s.FORWARD_TO.length]?).map fun p =>
              (m.id, p.1, p.2) := by
  have hcm : check_messages s env (true, msgs) C = processBatch s env msgs C := rfl
  rw [hcm]
  exact processBatch_all_success s env msgs C hC hall

/-- Witness for c1_round_robin_all_success: the three-message batch of the
test suite against the two configured recipients, starting at cursor 0
(final cursor (0 + 3) mod 2 = 1; recipients Bender, Zoidberg, Bender). -/
theorem c1_round_robin_all_success_witness :
    ∃ evts, check_messages defaultSettings allOkEnv (true, sampleMessages) 0 =
        some ((0 + sampleMessages.length) % defaultSettings.FORWARD_TO.length, evts) ∧
      (forwardsOf evts).length = sampleMessages.length ∧
      ∀ i, i < sampleMessages.length →
        (forwardsOf evts)[i]? =
          sampleMessages[i]?.bind fun m =>
            (defaultSettings.FORWARD_TO[(0 + i) % defaultSettings.FORWARD_TO.length]?).map
              fun p => (m.id, p.1, p.2) :=
  c1_round_robin_all_success defaultSettings allOkEnv sampleMessages 0 (by decide)
    (fun _ _ _ _ => rfl)

/-- C2: when the forward of a message fails, that message gets no
mark-as-read and no auto-reply call (its only API call is the failed
forward), the cursor does not advance for it, and the remaining batch is
processed starting from the same cursor, hence against the same
recipient. -/
theorem c2_forward_failure_step (s : Settings) (env : Env) (m : Message)
    (rest : List Message) (idx : Nat) (nm em : String)
    (hsel : s.FORWARD_TO[idx]? = some (nm, em))
    (hfw : env.fwdOk m.id nm em = false) :
    processMessage s env m nm em = (false, [Event.forward m.id nm em false]) ∧
    processBatch s env (m :: rest) idx =
      (processBatch s env rest idx).map fun q =>
        (q.1, Event.forward m.id nm em false :: q.2) :=
  ⟨processMessage_failure s env m nm em hfw,
   processBatch_cons_failure s env m rest idx nm em hsel hfw⟩

/-- Witness for c2_forward_failure_step: a single-message batch whose
forward fails, against the two configured recipients at cursor 0. -/
theorem c2_forward_failure_step_witness :
    processMessage defaultSettings failFwdEnv sampleMsg
        "Bender Bending Rodriguez" "bender@planetexpress.com" =
      (false, [Event.forward sampleMsg.id "Bender Bending Rodriguez"
        "bender@planetexpress.com" false]) ∧
    processBatch defaultSettings failFwdEnv (sampleMsg :: []) 0 =
      (processBatch defaultSettings failFwdEnv [] 0).map fun q =>
        (q.1, Event.forward sampleMsg.id "Bender Bending Rodriguez"
          "bender@planetexpress.com" false :: q.2) :=
  c2_forward_failure_step defaultSettings failFwdEnv sampleMsg [] 0
    "Bender Bending Rodriguez" "bender@planetexpress.com" (by decide) rfl

/-- C3: the dispatcher sends an auto-reply for a message if and only if
AUTO_REPLY is enabled, the sender address is present, the sender is not in
AUTO_REPLY_EXCLUSIONS, and the forward of that message succeeded. -/
theorem c3_auto_reply_iff (s : Settings) (env : Env) (m : Message)
    (nm em : String) :
    (∃ se ok, Event.autoReply se ok ∈ (processMessage s env m nm em).2) ↔
      (s.AUTO_REPLY = true ∧ ∃ se, m.sender = some se ∧
        s.AUTO_REPLY_EXCLUSIONS.contains se = false ∧
        env.fwdOk m.id nm em = true) := by
  cases hfw : env.fwdOk m.id nm em with
  | false =>
    rw [processMessage_failure s env m nm em hfw]
    simp
  | true =>
    rw [processMessage_success s env m nm em hfw]
    rcases hse : m.sender with _ | se
    · rw [replyEvents_none s env m hse]
      simp [hse]
    · by_cases hc : (s.AUTO_REPLY && !(s.AUTO_REPLY_EXCLUSIONS.contains se)) = true
      · rw [replyEvents_some_pos s env m se hse hc]
        rw [Bool.and_eq_true, Bool.not_eq_true'] at hc
        constructor
        · intro _
          exact ⟨hc.1, se, rfl, hc.2, rfl⟩
        · intro _
          exact ⟨se, env.replyOk se, by simp⟩
      · rw [Bool.not_eq_true] at hc
        rw [replyEvents_some_neg s env m se hse hc]
        constructor
        · rintro ⟨se2, ok, hmem⟩
          simp at hmem
        · rintro ⟨ha, se2, hse2, hex, _⟩
          exfalso
          injection hse2 with heq
          subst heq
          rw [ha, hex] at hc
          exact absurd hc (by decide)

/-- C5: when a forward succeeds but the mark-as-read fails, the cursor
still advances by one modulo len(FORWARD_TO) for that message (the rest of
the batch starts from the advanced cursor), the failed mark-read is merely
recorded, the auto-reply is still sent whenever the auto-reply conditions
hold, and the mark-read outcome never influences the final cursor. -/
theorem c5_mark_read_failure_ignored (s : Settings) (env : Env) (m : Message)
    (rest : List Message) (idx : Nat) (nm em : String)
    (hsel : s.FORWARD_TO[idx]? = some (nm, em))
    (hfw : env.fwdOk m.id nm em = true)
    (hmark : env.markOk m.id = false) :
    (processBatch s env (m :: rest) idx).map Prod.fst =
      (processBatch s env rest ((idx + 1) % s.FORWARD_TO.length)).map Prod.fst ∧
    Event.markRead m.id false ∈ (processMessage s env m nm em).2 ∧
    (∀ se, m.sender = some se → s.AUTO_REPLY = true →
      s.AUTO_REPLY_EXCLUSIONS.contains se = false →
      Event.autoReply se (env.replyOk se) ∈ (processMessage s env m nm em).2) ∧
    ∀ mk : String → Bool,
      (processBatch s { env with markOk := mk } (m :: rest) idx).map Prod.fst =
        (processBatch s env (m :: rest) idx).map Prod.fst := by
  refine ⟨?_, ?_, ?_, ?_⟩
  · rw [processBatch_cons_success s env m rest idx nm em hsel hfw, Option.map_map]
    rfl
  · rw [processMessage_success s env m nm em hfw, hmark]
    simp
  · intro se hse ha hex
    rw [processMessage_success s env m nm em hfw,
      replyEvents_some_pos s env m se hse (by rw [ha, hex]; rfl)]
    simp
  · intro mk
    exact processBatch_fst_markOk s env mk (m :: rest) idx

/-- Witness for c5_mark_read_failure_ignored: a single-message batch whose
forward succeeds and whose mark-as-read fails, at cursor 0 of the two
configured recipients. -/
theorem c5_mark_read_failure_ignored_witness :
    (processBatch defaultSettings markFailEnv (sampleMsg :: []) 0).map Prod.fst =
      (processBatch defaultSettings markFailEnv []
        ((0 + 1) % defaultSettings.FORWARD_TO.length)).map Prod.fst ∧
    Event.markRead sampleMsg.id false ∈
      (processMessage defaultSettings markFailEnv sampleMsg
        "Bender Bending Rodriguez" "bender@planetexpress.com").2 ∧
    (∀ se, sampleMsg.sender = some se → defaultSettings.AUTO_REPLY = true →
      defaultSettings.AUTO_REPLY_EXCLUSIONS.contains se = false →
      Event.autoReply se (markFailEnv.replyOk se) ∈
        (processMessage defaultSettings markFailEnv sampleMsg
          "Bender Bending Rodriguez" "bender@planetexpress.com").2) ∧
    ∀ mk : String → Bool,
      (processBatch defaultSettings { markFailEnv with markOk := mk }
          (sampleMsg :: []) 0).map Prod.fst =
        (processBatch defaultSettings markFailEnv (sampleMsg :: []) 0).map Prod.fst :=
  c5_mark_read_failure_ignored defaultSettings markFailEnv sampleMsg [] 0
    "Bender Bending Rodriguez" "bender@planetexpress.com" (by decide) rfl rfl

/-- C6 counterexample: load_index performs no range validation, so a
stored "5" is returned as 5 even though the configured recipient list has
length 2, refuting the claim that every value returned by load_index lies
in [0, len(FORWARD_TO)). -/
theorem c6_load_index_unvalidated_counterexample :
    load_index (some ['5', '\n']) = 5 ∧
    defaultSettings.FORWARD_TO.length = 2 ∧
    ¬(load_index (some ['5', '\n']) < 2) := by
  refine ⟨by decide, rfl, by decide⟩

/-- C6 amended: whenever check_messages starts from a cursor start_index
in [0, len(FORWARD_TO)), it completes without an out-of-range recipient
selection and the cursor it returns is again in [0, len(FORWARD_TO));
load_index itself does not validate the loaded value against the list. -/
theorem c6_cursor_stays_in_range (s : Settings) (env : Env) (flag : Bool)
    (msgs : List Message) (start : Nat) (hs : start < s.FORWARD_TO.length) :
    ∃ fin evts, check_messages s env (flag, msgs) start = some (fin, evts) ∧
      fin < s.FORWARD_TO.length := by
  cases flag with
  | false => exact ⟨start, [], rfl, hs⟩
  | true =>
    have hcm : check_messages s env (true, msgs) start =
        processBatch s env msgs start := rfl
    rw [hcm]
    exact processBatch_total_lt s env msgs start hs

/-- Witness for c6_cursor_stays_in_range: the three-message batch at
cursor 1 of the two configured recipients. -/
theorem c6_cursor_stays_in_range_witness :
    ∃ fin evts, check_messages defaultSettings allOkEnv (true, sampleMessages) 1 =
        some (fin, evts) ∧ fin < defaultSettings.FORWARD_TO.length :=
  c6_cursor_stays_in_range defaultSettings allOkEnv true sampleMessages 1 (by decide)

/-- C10: for every start cursor C in [0, N) and every batch with any mix
of per-message forward outcomes (given by the success predicate f on
message ids), check_messages returns cursor (C + S) mod N where S counts
the messages whose forward succeeded. -/
theorem c10_cursor_advance_is_success_count (s : Settings) (env : Env)
    (f : String → Bool) (msgs : List Message) (C : Nat)
    (hC : C < s.FORWARD_TO.length)
    (hf : ∀ mid nm em, env.fwdOk mid nm em = f mid) :
    ∃ evts, check_messages s env (true, msgs) C =
      some ((C + msgs.countP fun msg => f msg.id) % s.FORWARD_TO.length, evts) := by
  have hcm : check_messages s env (true, msgs) C = processBatch s env msgs C := rfl
  rw [hcm]
  exact processBatch_count s env f hf msgs C hC

/-- Witness for c10_cursor_advance_is_success_count: of the three test
messages only the one with id "1" forwards, so the final cursor is
(0 + 1) mod 2 = 1. -/
theorem c10_cursor_advance_is_success_count_witness :
    ∃ evts, check_messages defaultSettings oneOkEnv (true, sampleMessages) 0 =
      some ((0 + sampleMessages.countP fun msg => msg.id == "1") %
        defaultSettings.FORWARD_TO.length, evts) :=
  c10_cursor_advance_is_success_count defaultSettings oneOkEnv
    (fun mid => mid == "1") sampleMessages 0 (by decide) (fun _ _ _ => rfl)
